import Mathlib

/-!
Verification of the application state machine of a terminal key-value-store
browser (single source file `gui.go`).  The definitions below are a shallow
embedding of that file: physical key codes, the key-binding registry, the
focus ring (`focusPrimitives` / `currentFocusIndex`), the command panel's
single-flight gate, the command-mode toggle of the input dispatcher, the
key-selected detail handler, and the search-submission dispatch.
-/

namespace RedisGli

/-- The physical key codes (`tcell.Key` constants) that appear in the source. -/
inductive TKey
  | F1 | F2 | F3 | F4 | F5 | F6 | F7 | F9
  | CtrlA | CtrlF | CtrlK | CtrlN | CtrlO | CtrlQ | CtrlR | CtrlS | CtrlY
  | Esc | Tab | Enter
deriving DecidableEq, Repr

/-- The `keyBindings` map (gui.go lines 13-25).  The Go value is a map with
unspecified iteration order; we fix the source's textual order, so `searchKey`
below is one admissible first-match resolution of the unordered mapping. -/
def keyBindings : List (String × List TKey) :=
  [("search", [TKey.F2, TKey.CtrlS]),
   ("keys", [TKey.F3, TKey.CtrlK]),
   ("key_list_value", [TKey.F6, TKey.CtrlY]),
   ("key_string_value", [TKey.F7, TKey.CtrlA]),
   ("key_hash", [TKey.F6, TKey.CtrlY]),
   ("output", [TKey.F9, TKey.CtrlO]),
   ("command", [TKey.F1, TKey.CtrlN]),
   ("command_focus", [TKey.F4, TKey.CtrlF]),
   ("command_result", [TKey.F5, TKey.CtrlR]),
   ("quit", [TKey.Esc, TKey.CtrlQ]),
   ("switch_focus", [TKey.Tab])]

/-- `KeyBindings.SearchKey` (gui.go lines 27-37): first binding whose code
list contains the key; `""` when none does. -/
def searchKey (kb : List (String × List TKey)) (k : TKey) : String :=
  match kb with
  | [] => ""
  | (name, bind) :: rest => if bind.contains k then name else searchKey rest k

/-- `KeyBindings.Keys` (gui.go lines 43-45): the code list configured for an
action (`kb[key]`, the empty list when absent). -/
def keysFor (kb : List (String × List TKey)) (action : String) : List TKey :=
  match kb with
  | [] => []
  | (name, bind) :: rest => if name = action then bind else keysFor rest action

/-- The focus ring: `focusPrimitives` plus `currentFocusIndex`.  Entries are
(primitive, action-key) pairs in the source; we keep the entry type abstract. -/
structure FocusRing (α : Type) where
  entries : List α
  currentIndex : Nat
deriving DecidableEq, Repr

/-- Appending a focus entry (`gli.focusPrimitives = append(...)`): the index
is not touched. -/
def FocusRing.append (r : FocusRing α) (x : α) : FocusRing α :=
  { r with entries := r.entries ++ [x] }

/-- `primitivesFilter` (gui.go lines 393-402) as used on the ring: keep the
entries satisfying the predicate.  The source never touches
`currentFocusIndex` here. -/
def FocusRing.removeFilter (r : FocusRing α) (keep : α → Bool) : FocusRing α :=
  { r with entries := r.entries.filter keep }

/-- The `switch_focus` branch of the input dispatcher (gui.go lines 156-163):
`nextFocusIndex := currentFocusIndex + 1; if nextFocusIndex > len-1 { 0 }`.
The comparison is on Go ints, so `len - 1` is `-1` for the empty ring. -/
def FocusRing.advance (r : FocusRing α) : FocusRing α :=
  let nextFocusIndex := r.currentIndex + 1
  if (nextFocusIndex : Int) > (r.entries.length : Int) - 1 then
    { r with currentIndex := 0 }
  else
    { r with currentIndex := nextFocusIndex }

/-- `n` consecutive `switch_focus` dispatches. -/
def FocusRing.advanceN (r : FocusRing α) : Nat → FocusRing α
  | 0 => r
  | n + 1 => (r.advanceN n).advance

/-- The index invariant the spec states for the ring. -/
def FocusRing.Inv (r : FocusRing α) : Prop :=
  (r.entries = [] → r.currentIndex = 0) ∧
  (r.entries ≠ [] → r.currentIndex < r.entries.length)

instance (r : FocusRing α) [DecidableEq α] : Decidable r.Inv := by
  unfold FocusRing.Inv; infer_instance

theorem FocusRing.advance_entries (r : FocusRing α) :
    r.advance.entries = r.entries := by
  unfold advance; dsimp only; split <;> rfl

theorem FocusRing.advanceN_entries (r : FocusRing α) (n : Nat) :
    (r.advanceN n).entries = r.entries := by
  induction n with
  | zero => rfl
  | succ n ih => rw [advanceN, advance_entries, ih]

theorem FocusRing.advance_index_lt (r : FocusRing α)
    (h : r.currentIndex < r.entries.length) :
    r.advance.currentIndex = (r.currentIndex + 1) % r.entries.length := by
  unfold advance
  dsimp only
  split
  · rename_i hgt
    have hge : r.entries.length ≤ r.currentIndex + 1 := by
      omega
    have : r.currentIndex + 1 = r.entries.length := by omega
    simp [this]
  · rename_i hle
    have hlt : r.currentIndex + 1 < r.entries.length := by omega
    simp [Nat.mod_eq_of_lt hlt]

theorem FocusRing.advanceN_index (r : FocusRing α)
    (h : r.currentIndex < r.entries.length) (n : Nat) :
    (r.advanceN n).currentIndex = (r.currentIndex + n) % r.entries.length := by
  have hpos : 0 < r.entries.length := Nat.lt_of_le_of_lt (Nat.zero_le _) h
  induction n with
  | zero =>
    simpa [advanceN] using (Nat.mod_eq_of_lt h).symm
  | succ n ih =>
    rw [advanceN]
    have hmem : (r.advanceN n).currentIndex < (r.advanceN n).entries.length := by
      rw [advanceN_entries, ih]
      exact Nat.mod_lt _ hpos
    rw [advance_index_lt _ hmem, advanceN_entries, ih]
    conv_rhs => rw [show r.currentIndex + (n + 1) = r.currentIndex + n + 1 by omega]
    rw [Nat.add_mod (r.currentIndex + n) 1, Nat.add_mod ((r.currentIndex + n) % r.entries.length) 1,
      Nat.mod_mod_of_dvd _ dvd_rfl]

/-- The tcell colors the source tags messages with. -/
inductive Color
  | red | green | orange | defaultColor
deriving DecidableEq, Repr

/-- `OutputMessage` (gui.go lines 61-64). -/
structure OutputMessage where
  color : Color
  message : String
deriving DecidableEq, Repr

/-- The error message the source emits for every failed store call:
`fmt.Sprintf("errors: %s", err)` with `tcell.ColorRed`. -/
def errMsg (e : String) : OutputMessage :=
  { color := Color.red, message := "errors: " ++ e }

/-- The mutable state the command panel's done-handler touches
(gui.go lines 288-335): the `locked` flag, the input field's text, the
modal alert pages pushed, the output feed, and the list of command texts
whose asynchronous execution has been launched (the `go func(cmdText)`
bodies queued on the UI thread), in launch order. -/
structure CommandState where
  locked : Bool
  formText : String
  alertPages : Nat
  output : List OutputMessage
  startedExecutions : List String
  resultText : String
deriving DecidableEq, Repr

/-- The command input's done-handler (gui.go lines 290-335).  `key` is the
key that finished the input.  When `locked`, it only pushes the
"Other command is processing, please wait..." modal page and returns; when
idle it emits the processing message, sets `locked`, launches the
execution of the submitted text, and clears the input field. -/
def commandDone (key : TKey) (s : CommandState) : CommandState :=
  if key ≠ TKey.Enter then s
  else if s.locked then
    { s with alertPages := s.alertPages + 1 }
  else
    let cmdText := s.formText
    { s with
      output := s.output ++
        [{ color := Color.orange, message := "Command " ++ cmdText ++ " is processing..." }],
      locked := true,
      startedExecutions := s.startedExecutions ++ [cmdText],
      formText := "" }

/-- The body the launched goroutine queues on the UI thread
(gui.go lines 318-331): run the command, release the lock, and emit the
error or success message (`res` is the store's reply). -/
def commandComplete (cmdText : String) (res : Except String String)
    (s : CommandState) : CommandState :=
  match res with
  | Except.error e =>
    { s with locked := false, output := s.output ++ [errMsg e] }
  | Except.ok r =>
    { s with
      locked := false,
      resultText := r,
      output := s.output ++
        [{ color := Color.green, message := "Command " ++ cmdText ++ " succeed" }] }

/-- The tview primitives (panel handles) the dispatcher and the
key-selected handler distinguish. -/
inductive Panel
  | welcomeScreen | mainStringView | mainHashView | mainListView
  | searchPanel | keyItemsPanel | outputPanel
  | commandFormPanel | commandResultPanel
  | mainPanel | commandPanel
deriving DecidableEq, Repr

/-- The controller state the `command` branch of the input dispatcher
touches (gui.go lines 168-184): the `commandMode` flag, which center panel
`redrawRightPanel` mounted, the primitive holding input focus, the focus
ring. -/
structure AppState where
  commandMode : Bool
  centerPanel : Panel
  focusedPrimitive : Panel
  currentFocusIndex : Nat
  focusPrimitives : List (Panel × String)
deriving DecidableEq, Repr

/-- The `for i, p := range gli.focusPrimitives` loop of the command-on
branch (gui.go lines 178-183), scanning from position `i0`: every entry
whose primitive is `target` sets focus and the index (no break, so the
last match wins). -/
def focusScan (target : Panel) : Nat → List (Panel × String) → AppState → AppState
  | _, [], st => st
  | i, p :: rest, st =>
    focusScan target (i + 1) rest
      (if p.1 = target then
        { st with focusedPrimitive := target, currentFocusIndex := i }
      else st)

/-- The `command` case of the input dispatcher (gui.go lines 168-184). -/
def dispatchCommand (s : AppState) : AppState :=
  if s.commandMode then
    { s with
      commandMode := false,
      centerPanel := Panel.mainPanel,
      focusedPrimitive := Panel.searchPanel,
      currentFocusIndex := 0 }
  else
    let s1 := { s with commandMode := true, centerPanel := Panel.commandPanel }
    focusScan Panel.commandFormPanel 0 s1.focusPrimitives s1

theorem focusScan_no_match (target : Panel) :
    ∀ (l : List (Panel × String)) (i : Nat) (st : AppState),
      target ∉ l.map Prod.fst → focusScan target i l st = st := by
  intro l
  induction l with
  | nil => intro i st _; rfl
  | cons p rest ih =>
    intro i st hnot
    rw [focusScan]
    have hp : ¬p.1 = target := by
      intro he; exact hnot (by simp [he.symm])
    rw [if_neg hp]
    exact ih (i + 1) st (by intro hm; exact hnot (by simp [hm]))

theorem focusScan_last_match (target : Panel) (a : String) :
    ∀ (l₁ l₂ : List (Panel × String)) (i : Nat) (st : AppState),
      target ∉ l₂.map Prod.fst →
      focusScan target i (l₁ ++ (target, a) :: l₂) st =
        { st with focusedPrimitive := target, currentFocusIndex := i + l₁.length } := by
  intro l₁
  induction l₁ with
  | nil =>
    intro l₂ i st h₂
    rw [List.nil_append, focusScan, if_pos rfl]
    rw [focusScan_no_match target l₂ (i + 1) _ h₂]
    simp
  | cons p rest ih =>
    intro l₂ i st h₂
    rw [List.cons_append, focusScan]
    rw [ih l₂ (i + 1) _ h₂]
    by_cases hp : p.1 = target <;> simp [hp] <;> omega

/-- Go's `fmt` `%3d` verb at a non-negative argument: the decimal digits,
left-padded with spaces to a minimum width of 3. -/
def goFmt3 (n : Nat) : String :=
  let s := toString n
  if s.length < 3 then String.mk (List.replicate (3 - s.length) ' ') ++ s else s

/-- One rendered row of the list/set/hash views:
`fmt.Sprintf(" %3d | %s", i+1, v)` (gui.go lines 515, 529, 561). -/
def listRow (i : Nat) (v : String) : String :=
  " " ++ goFmt3 (i + 1) ++ " | " ++ v

/-- The UI state the key-selected handler (gui.go lines 466-582) reads and
writes: the output feed, the main panel's item list and border flag, the
focus ring entries, the contents of the three detail views (`mainListView`
rows carry a (main text, secondary text) pair), and the meta panel text. -/
structure DetailState where
  output : List OutputMessage
  mainPanelItems : List Panel
  mainPanelBorder : Bool
  focusPrimitives : List (Panel × String)
  stringViewText : String
  listViewRows : List (String × String)
  listViewShowSecondary : Bool
  hashViewRows : List String
  metaText : String
deriving DecidableEq, Repr

/-- The replies the store client would give for one key selection: the
`Type`, `TTL` (its rendered `String()` form), and the per-type value
fetches.  Ranked-set members are paired with the rendered form of their
score. -/
structure FetchOracle where
  typeRes : Except String String
  ttlRes : Except String String
  getRes : Except String String
  lrangeRes : Except String (List String)
  smembersRes : Except String (List String)
  zrangeRes : Except String (List (String × String))
  hkeysRes : Except String (List String)
deriving Repr

/-- The unconditional mutations the handler performs after the type and TTL
fetches succeed and before the type-specific fetch (gui.go lines 481-494):
remove the welcome screen and drop the main panel's border, clear the three
detail views, filter their focus-ring entries out, and remove the three
views from the main panel. -/
def clearDetail (s : DetailState) : DetailState :=
  { s with
    mainPanelItems :=
      ((s.mainPanelItems.filter (fun p => p != Panel.welcomeScreen)).filter
        (fun p =>
          p != Panel.mainStringView && p != Panel.mainHashView && p != Panel.mainListView)),
    mainPanelBorder := false,
    hashViewRows := [],
    stringViewText := "",
    listViewRows := [],
    listViewShowSecondary := false,
    focusPrimitives := s.focusPrimitives.filter (fun item =>
      item.1 != Panel.mainHashView && item.1 != Panel.mainListView &&
        item.1 != Panel.mainStringView) }

/-- The handler's closing lines (gui.go 580-581): the success message and
the meta panel summary. -/
def finishSelect (key keyType ttl : String) (s : DetailState) : DetailState :=
  { s with
    output := s.output ++
      [{ color := Color.green,
         message := "query " ++ key ++ " OK, type=" ++ keyType ++ ", ttl=" ++ ttl }],
    metaText := "KeyID: " ++ key ++ "\nType: " ++ keyType ++ ", TTL: " ++ ttl }

/-- The key-selected handler (gui.go lines 466-582), with the store's
replies supplied by `o`. -/
def keySelected (o : FetchOracle) (key : String) (s : DetailState) : DetailState :=
  match o.typeRes with
  | Except.error e => { s with output := s.output ++ [errMsg e] }
  | Except.ok keyType =>
    match o.ttlRes with
    | Except.error e => { s with output := s.output ++ [errMsg e] }
    | Except.ok ttl =>
      let s1 := clearDetail s
      if keyType = "string" then
        match o.getRes with
        | Except.error e => { s1 with output := s1.output ++ [errMsg e] }
        | Except.ok result =>
          finishSelect key keyType ttl
            { s1 with
              stringViewText := " " ++ result,
              mainPanelItems := s1.mainPanelItems ++ [Panel.mainStringView],
              focusPrimitives :=
                s1.focusPrimitives ++ [(Panel.mainStringView, "key_string_value")] }
      else if keyType = "list" then
        match o.lrangeRes with
        | Except.error e => { s1 with output := s1.output ++ [errMsg e] }
        | Except.ok values =>
          finishSelect key keyType ttl
            { s1 with
              listViewRows := values.enum.map (fun iv => (listRow iv.1 iv.2, "")),
              mainPanelItems := s1.mainPanelItems ++ [Panel.mainListView],
              focusPrimitives :=
                s1.focusPrimitives ++ [(Panel.mainListView, "key_list_value")] }
      else if keyType = "set" then
        match o.smembersRes with
        | Except.error e => { s1 with output := s1.output ++ [errMsg e] }
        | Except.ok values =>
          finishSelect key keyType ttl
            { s1 with
              listViewRows := values.enum.map (fun iv => (listRow iv.1 iv.2, "")),
              mainPanelItems := s1.mainPanelItems ++ [Panel.mainListView],
              focusPrimitives :=
                s1.focusPrimitives ++ [(Panel.mainListView, "key_list_value")] }
      else if keyType = "zset" then
        match o.zrangeRes with
        | Except.error e => { s1 with output := s1.output ++ [errMsg e] }
        | Except.ok values =>
          finishSelect key keyType ttl
            { s1 with
              listViewShowSecondary := true,
              listViewRows := values.enum.map (fun iz =>
                (listRow iz.1 iz.2.1, "    Score: " ++ iz.2.2)),
              mainPanelItems := s1.mainPanelItems ++ [Panel.mainListView],
              focusPrimitives :=
                s1.focusPrimitives ++ [(Panel.mainListView, "key_list_value")] }
      else if keyType = "hash" then
        match o.hkeysRes with
        | Except.error e => { s1 with output := s1.output ++ [errMsg e] }
        | Except.ok hashKeys =>
          finishSelect key keyType ttl
            { s1 with
              hashViewRows := hashKeys.enum.map (fun ik => listRow ik.1 ik.2),
              mainPanelItems :=
                s1.mainPanelItems ++ [Panel.mainHashView, Panel.mainStringView],
              focusPrimitives := s1.focusPrimitives ++
                [(Panel.mainHashView, "key_hash"),
                 (Panel.mainStringView, "key_string_value")] }
      else
        finishSelect key keyType ttl s1

/-- Index normalisation of the store's range fetches: a negative index
counts from the end of the collection. -/
def normIndex (len : Nat) (i : Int) : Int :=
  if i < 0 then i + len else i

/-- Modelled from the spec: the store-client operations
`listRange(key, start, stop)` and `rankedRangeWithScores(key, start, stop)`
(spec section 6) live outside src/ — only their call sites do.  Their range
convention is that of the Redis LRANGE / ZRANGE commands the operations
name: `start` and `stop` are both INCLUSIVE zero-based indices (negative
indices count from the end, out-of-range stops are clamped, an inverted
range is empty). -/
def lrange (xs : List α) (start stop : Int) : List α :=
  let s := max (normIndex xs.length start) 0
  let e := min (normIndex xs.length stop) ((xs.length : Int) - 1)
  if s > e then [] else (xs.drop s.toNat).take (e - s + 1).toNat

/-- The list-type value fetch at its call site:
`gli.redisClient.LRange(key, 0, 1000)` (gui.go line 508). -/
def listValueFetch (store : List String) : List String :=
  lrange store 0 1000

/-- The ranked-set value fetch at its call site:
`gli.redisClient.ZRangeWithScores(key, 0, 1000)` (gui.go line 536); members
paired with the rendered form of their score. -/
def zsetValueFetch (store : List (String × String)) : List (String × String) :=
  lrange store 0 1000

theorem lrange_zero_length (xs : List α) (n : Int) (hn : 0 ≤ n) :
    (lrange xs 0 n).length = min (n.toNat + 1) xs.length := by
  unfold lrange normIndex
  simp only
  rw [if_neg (show ¬(0 : Int) < 0 by omega), if_neg (show ¬n < 0 by omega)]
  by_cases hs : (max (0 : Int) 0) > min n ((xs.length : Int) - 1)
  · rw [if_pos hs]
    simp only [List.length_nil]
    omega
  · rw [if_neg hs]
    rw [List.length_take, List.length_drop]
    omega

/-- Go string slicing `s[low:high]`: defined exactly when
`low ≤ high ≤ len(s)`, otherwise the program panics (modelled as `none`). -/
def goStringSlice (s : String) (low high : Nat) : Option String :=
  if low ≤ high ∧ high ≤ s.length then
    some (String.mk ((s.data.drop low).take (high - low)))
  else none

/-- The constructor state that `NewRedisGli` (gui.go lines 107-117) builds
first; the very first field computation is `gitCommit[0:8]`. -/
structure RedisGliInit where
  maxKeyLimit : Int
  version : String
  gitCommit : String
deriving DecidableEq, Repr

/-- `NewRedisGli`'s construction of the initial state (gui.go lines
108-117): `gitCommit[0:8]` is evaluated inside the struct literal, so a
panic there (modelled as `none`) happens before any state exists. -/
def newRedisGli (maxKeyLimit : Int) (version gitCommit : String) :
    Option RedisGliInit :=
  (goStringSlice gitCommit 0 8).map (fun gc =>
    { maxKeyLimit := maxKeyLimit, version := version, gitCommit := gc })

/-- The store operation a search submission issues. -/
inductive StoreQuery
  | scanOp (cursor : Nat) (pattern : String) (limit : Int)
  | keysOp (pattern : String)
deriving DecidableEq, Repr

/-- The search panel's done-handler dispatch (gui.go lines 358-367): empty
text or `"*"` goes through `Scan(0, text, maxKeyLimit)`, anything else
through `Keys(text)` with no limit. -/
def searchQuery (text : String) (maxKeyLimit : Int) : StoreQuery :=
  if text = "" ∨ text = "*" then StoreQuery.scanOp 0 text maxKeyLimit
  else StoreQuery.keysOp text

/-! ## Claim theorems -/

/-- C1: while a submitted command's execution is running (the lock is held),
submitting a second command (Enter in the command input) never starts that
command's execution and never queues its text: the handler only pushes the
blocking "please wait" modal page and returns, leaving the lock, the output
feed, and the input text untouched. -/
theorem command_gate_locked_drops (s : CommandState) (h : s.locked = true) :
    (commandDone TKey.Enter s).startedExecutions = s.startedExecutions ∧
    (commandDone TKey.Enter s).output = s.output ∧
    (commandDone TKey.Enter s).locked = s.locked ∧
    (commandDone TKey.Enter s).formText = s.formText ∧
    (commandDone TKey.Enter s).resultText = s.resultText ∧
    (commandDone TKey.Enter s).alertPages = s.alertPages + 1 := by
  simp [commandDone, h]

/-- A state in which command "GET a" is still running and "SET a b" is
submitted. -/
def cmdLockedState : CommandState :=
  { locked := true, formText := "SET a b", alertPages := 0,
    output := [{ color := Color.orange, message := "Command GET a is processing..." }],
    startedExecutions := ["GET a"], resultText := "" }

theorem command_gate_locked_drops_witness :
    (commandDone TKey.Enter cmdLockedState).startedExecutions = cmdLockedState.startedExecutions ∧
    (commandDone TKey.Enter cmdLockedState).output = cmdLockedState.output ∧
    (commandDone TKey.Enter cmdLockedState).locked = cmdLockedState.locked ∧
    (commandDone TKey.Enter cmdLockedState).formText = cmdLockedState.formText ∧
    (commandDone TKey.Enter cmdLockedState).resultText = cmdLockedState.resultText ∧
    (commandDone TKey.Enter cmdLockedState).alertPages = cmdLockedState.alertPages + 1 :=
  command_gate_locked_drops cmdLockedState rfl

/-- C5 counterexample: the cycle property fails for an out-of-range
starting index — a state the program reaches, since removal
(`primitivesFilter`) never clamps `currentFocusIndex`.  On a ring of size
K = 5 starting at index 6, N = 5 advances (a multiple of K) end at index 4,
not 6: the first advance wraps straight to 0. -/
theorem switch_focus_cycle_cex :
    (FocusRing.mk ["a", "b", "c", "d", "e"] 6).entries.length ∣ 5 ∧
    ((FocusRing.mk ["a", "b", "c", "d", "e"] 6).advanceN 5).currentIndex ≠
      (FocusRing.mk ["a", "b", "c", "d", "e"] 6).currentIndex := by
  decide

/-- C5 amended: on a focus ring of size K ≥ 1 whose current index is a
valid position of the ring (index < K), dispatching `switch_focus` N times
with K ∣ N returns the current index to its original value (advancement is
cyclic: `(i+1) mod K`); for an out-of-range starting index the first
advance wraps to 0 and the cycle property can fail. -/
theorem switch_focus_cycle {α : Type} (r : FocusRing α)
    (hidx : r.currentIndex < r.entries.length)
    (n : Nat) (hdvd : r.entries.length ∣ n) :
    (r.advanceN n).currentIndex = r.currentIndex := by
  rw [FocusRing.advanceN_index r hidx n]
  obtain ⟨m, rfl⟩ := hdvd
  rw [Nat.add_mul_mod_self_left]
  exact Nat.mod_eq_of_lt hidx

theorem switch_focus_cycle_witness :
    ((FocusRing.mk ["search", "keys", "output"] 1).advanceN 6).currentIndex =
      (FocusRing.mk ["search", "keys", "output"] 1).currentIndex :=
  switch_focus_cycle (FocusRing.mk ["search", "keys", "output"] 1)
    (by decide) 6 (by decide)

/-- C9: `NewRedisGli` computes `gitCommit[0:8]` inside the struct literal,
so any argument shorter than 8 characters makes construction panic before
any state is built, and any argument of length at least 8 yields a state
whose stored commit is the 8-character prefix. -/
theorem newRedisGli_gitCommit_length (m : Int) (v gc : String) :
    (gc.length < 8 → newRedisGli m v gc = none) ∧
    (8 ≤ gc.length →
      ∃ g, newRedisGli m v gc = some g ∧ g.gitCommit.length = 8) := by
  constructor
  · intro h
    unfold newRedisGli goStringSlice
    rw [if_neg (by omega)]
    rfl
  · intro h
    unfold newRedisGli goStringSlice
    rw [if_pos ⟨by omega, h⟩]
    refine ⟨_, rfl, ?_⟩
    show ((gc.data.drop 0).take (8 - 0)).length = 8
    rw [List.length_take, List.length_drop]
    have hlen : 8 ≤ gc.data.length := h
    omega

theorem newRedisGli_gitCommit_length_witness :
    newRedisGli 100 "1.0" "abc" = none :=
  (newRedisGli_gitCommit_length 100 "1.0" "abc").1 (by decide)

/-- C10: a search submission with empty text or exactly `"*"` populates the
key list via `Scan(0, text, maxKeyLimit)` (cursor scan capped at the
configured maximum); any other text goes through `Keys(text)` with no
limit. -/
theorem searchQuery_dispatch (text : String) (maxKeyLimit : Int) :
    ((text = "" ∨ text = "*") →
      searchQuery text maxKeyLimit = StoreQuery.scanOp 0 text maxKeyLimit) ∧
    (text ≠ "" → text ≠ "*" →
      searchQuery text maxKeyLimit = StoreQuery.keysOp text) := by
  constructor
  · intro h
    unfold searchQuery
    rw [if_pos h]
  · intro h1 h2
    unfold searchQuery
    rw [if_neg (show ¬(text = "" ∨ text = "*") by tauto)]

theorem searchQuery_dispatch_witness :
    searchQuery "*" 100 = StoreQuery.scanOp 0 "*" 100 ∧
    searchQuery "user:1" 100 = StoreQuery.keysOp "user:1" :=
  ⟨(searchQuery_dispatch "*" 100).1 (Or.inr rfl),
   (searchQuery_dispatch "user:1" 100).2 (by decide) (by decide)⟩

/-- C4 counterexample: the actions `key_list_value` and `key_hash` are
configured with the same codes (F6, Ctrl-Y), so first-match resolution of a
code taken from `key_hash`'s code set does not return `key_hash`. -/
theorem searchKey_roundtrip_cex :
    TKey.F6 ∈ keysFor keyBindings "key_hash" ∧
    searchKey keyBindings TKey.F6 ≠ "key_hash" := by
  decide

/-- C4 amended: for every action and every code in its configured set,
first-match resolution returns that action — except for `key_hash`, whose
two codes are also bound to the earlier entry `key_list_value` and
therefore resolve to `key_list_value`. -/
theorem searchKey_roundtrip_amended :
    ∀ p ∈ keyBindings, ∀ k ∈ p.2,
      searchKey keyBindings k =
        if p.1 = "key_hash" then "key_list_value" else p.1 := by
  decide

theorem searchKey_roundtrip_amended_witness :
    searchKey keyBindings TKey.Tab = "switch_focus" := by
  have h := searchKey_roundtrip_amended ("switch_focus", [TKey.Tab]) (by decide)
    TKey.Tab (by decide)
  rw [if_neg (by decide)] at h
  exact h

/-- C8: dispatching the `command` action with `commandMode` on turns the
mode off, swaps the key-detail panel back in, focuses the search entry and
resets the index to 0; with `commandMode` off it turns the mode on, swaps
in the command panel, and moves focus and index to the command-input
entry's position in the focus ring. -/
theorem dispatchCommand_toggle (s : AppState) :
    (s.commandMode = true →
      dispatchCommand s =
        { s with commandMode := false, centerPanel := Panel.mainPanel,
                 focusedPrimitive := Panel.searchPanel, currentFocusIndex := 0 }) ∧
    (∀ (l₁ l₂ : List (Panel × String)) (a : String),
      s.commandMode = false →
      s.focusPrimitives = l₁ ++ (Panel.commandFormPanel, a) :: l₂ →
      Panel.commandFormPanel ∉ l₂.map Prod.fst →
      dispatchCommand s =
        { s with commandMode := true, centerPanel := Panel.commandPanel,
                 focusedPrimitive := Panel.commandFormPanel,
                 currentFocusIndex := l₁.length }) := by
  constructor
  · intro h
    unfold dispatchCommand
    rw [if_pos h]
  · intro l₁ l₂ a hmode hsplit hno
    unfold dispatchCommand
    rw [if_neg (by rw [hmode]; exact Bool.false_ne_true)]
    dsimp only
    rw [hsplit, focusScan_last_match Panel.commandFormPanel a l₁ l₂ 0 _ hno]
    simp

/-- The focus ring as the constructor builds it: output panel, command
form, command result, then search and key list. -/
def initialFocus : List (Panel × String) :=
  [(Panel.outputPanel, "output"), (Panel.commandFormPanel, "command_focus"),
   (Panel.commandResultPanel, "command_result"), (Panel.searchPanel, "search"),
   (Panel.keyItemsPanel, "keys")]

theorem dispatchCommand_toggle_witness :
    dispatchCommand
        { commandMode := false, centerPanel := Panel.mainPanel,
          focusedPrimitive := Panel.searchPanel, currentFocusIndex := 0,
          focusPrimitives := initialFocus } =
      { commandMode := true, centerPanel := Panel.commandPanel,
        focusedPrimitive := Panel.commandFormPanel, currentFocusIndex := 1,
        focusPrimitives := initialFocus } :=
  (dispatchCommand_toggle _).2 [(Panel.outputPanel, "output")]
    [(Panel.commandResultPanel, "command_result"), (Panel.searchPanel, "search"),
     (Panel.keyItemsPanel, "keys")] "command_focus" rfl rfl (by decide)

/-- A UI state in which a string key was previously rendered: the string
view is mounted, holds text, and owns a focus-ring entry. -/
def detailPrior : DetailState :=
  { output := [], mainPanelItems := [Panel.mainStringView], mainPanelBorder := false,
    focusPrimitives :=
      [(Panel.outputPanel, "output"), (Panel.commandFormPanel, "command_focus"),
       (Panel.commandResultPanel, "command_result"), (Panel.searchPanel, "search"),
       (Panel.keyItemsPanel, "keys"), (Panel.mainStringView, "key_string_value")],
    stringViewText := " hello", listViewRows := [], listViewShowSecondary := false,
    hashViewRows := [], metaText := "KeyID: a\nType: string, TTL: -1ns" }

/-- Store replies for a selection whose type and TTL fetches succeed but
whose value fetch (`Get`) fails. -/
def oracleGetErr : FetchOracle :=
  { typeRes := Except.ok "string", ttlRes := Except.ok "-1ns",
    getRes := Except.error "connection refused", lrangeRes := Except.error "unused",
    smembersRes := Except.error "unused", zrangeRes := Except.error "unused",
    hkeysRes := Except.error "unused" }

/-- C2 counterexample: when the type-specific value fetch fails, exactly
one error message is emitted and the selection aborts, but the previously
rendered detail panel is NOT left in place: its text has been cleared, it
has been removed from the main panel, and its focus-ring entry is gone
(the handler clears before fetching, gui.go lines 481-494 vs 499-503). -/
theorem keySelected_value_error_cex :
    (keySelected oracleGetErr "a" detailPrior).output =
      detailPrior.output ++ [errMsg "connection refused"] ∧
    (keySelected oracleGetErr "a" detailPrior).stringViewText ≠
      detailPrior.stringViewText ∧
    (keySelected oracleGetErr "a" detailPrior).mainPanelItems ≠
      detailPrior.mainPanelItems ∧
    (keySelected oracleGetErr "a" detailPrior).focusPrimitives ≠
      detailPrior.focusPrimitives := by
  decide

/-- C2 amended: every failing fetch emits exactly one error OutputMessage
and aborts the rest of the selection (no success message, no meta update).
A type or TTL fetch failure leaves the UI state otherwise unchanged; a
type-specific value fetch failure does not — by then the handler has
already cleared the three detail views, removed them from the main panel,
and dropped their focus-ring entries (`clearDetail`). -/
theorem keySelected_error_paths (o : FetchOracle) (key : String)
    (s : DetailState) (e t ttl : String) :
    (o.typeRes = Except.error e →
      keySelected o key s = { s with output := s.output ++ [errMsg e] }) ∧
    (o.typeRes = Except.ok t → o.ttlRes = Except.error e →
      keySelected o key s = { s with output := s.output ++ [errMsg e] }) ∧
    (o.typeRes = Except.ok "string" → o.ttlRes = Except.ok ttl →
      o.getRes = Except.error e →
      keySelected o key s =
        { clearDetail s with output := s.output ++ [errMsg e] }) ∧
    (o.typeRes = Except.ok "list" → o.ttlRes = Except.ok ttl →
      o.lrangeRes = Except.error e →
      keySelected o key s =
        { clearDetail s with output := s.output ++ [errMsg e] }) ∧
    (o.typeRes = Except.ok "set" → o.ttlRes = Except.ok ttl →
      o.smembersRes = Except.error e →
      keySelected o key s =
        { clearDetail s with output := s.output ++ [errMsg e] }) ∧
    (o.typeRes = Except.ok "zset" → o.ttlRes = Except.ok ttl →
      o.zrangeRes = Except.error e →
      keySelected o key s =
        { clearDetail s with output := s.output ++ [errMsg e] }) ∧
    (o.typeRes = Except.ok "hash" → o.ttlRes = Except.ok ttl →
      o.hkeysRes = Except.error e →
      keySelected o key s =
        { clearDetail s with output := s.output ++ [errMsg e] }) := by
  refine ⟨?_, ?_, ?_, ?_, ?_, ?_, ?_⟩
  · intro h1
    simp [keySelected, h1]
  · intro h1 h2
    simp [keySelected, h1, h2]
  · intro h1 h2 h3
    simp [keySelected, h1, h2, h3, clearDetail]
  · intro h1 h2 h3
    simp [keySelected, h1, h2, h3, clearDetail]
  · intro h1 h2 h3
    simp [keySelected, h1, h2, h3, clearDetail]
  · intro h1 h2 h3
    simp [keySelected, h1, h2, h3, clearDetail]
  · intro h1 h2 h3
    simp [keySelected, h1, h2, h3, clearDetail]

theorem keySelected_error_paths_witness :
    keySelected oracleGetErr "a" detailPrior =
      { clearDetail detailPrior with
        output := detailPrior.output ++ [errMsg "connection refused"] } :=
  (keySelected_error_paths oracleGetErr "a" detailPrior
    "connection refused" "string" "-1ns").2.2.1 rfl rfl rfl

/-- C6 counterexample: the call site requests `LRange(key, 0, 1000)`; on a
stored list of 1001 elements the inclusive Redis range 0..1000 returns all
1001 of them, exceeding the claimed bound of 1000. -/
theorem listValueFetch_cex :
    ¬((listValueFetch (List.replicate 1001 "v")).length ≤ 1000) := by
  have h := lrange_zero_length (List.replicate 1001 "v") 1000 (by omega)
  simp only [listValueFetch, h, List.length_replicate]
  omega

/-- C6 amended: the ordered-list and ranked-set fetches request the
inclusive index range 0..1000, so the fetched (and hence rendered) data
contains at most 1001 elements; the bound 1001 is tight, not 1000. -/
theorem valueFetch_le_1001 (store : List String)
    (zstore : List (String × String)) :
    (listValueFetch store).length ≤ 1001 ∧
    (zsetValueFetch zstore).length ≤ 1001 := by
  constructor
  · rw [listValueFetch, lrange_zero_length store 1000 (by omega)]
    omega
  · rw [zsetValueFetch, lrange_zero_length zstore 1000 (by omega)]
    omega

/-- Store replies for selecting the list key `"b"` holding `["x","y","z"]`. -/
def oracleListXYZ : FetchOracle :=
  { typeRes := Except.ok "list", ttlRes := Except.ok "-1ns",
    getRes := Except.error "unused", lrangeRes := Except.ok ["x", "y", "z"],
    smembersRes := Except.error "unused", zrangeRes := Except.error "unused",
    hkeysRes := Except.error "unused" }

/-- A freshly started UI state: welcome screen mounted, constructor focus
ring, nothing rendered yet. -/
def detailStart : DetailState :=
  { output := [], mainPanelItems := [Panel.welcomeScreen], mainPanelBorder := true,
    focusPrimitives := initialFocus,
    stringViewText := "", listViewRows := [], listViewShowSecondary := false,
    hashViewRows := [], metaText := "" }

/-- C7 counterexample: selecting the list key `"b"` with elements
`["x","y","z"]` does not render the rows `"  1 | x"`, `"  2 | y"`,
`"  3 | z"`: the format string is `" %3d | %s"`, whose leading literal
space plus the width-3 index padding yields three spaces before a
one-digit index. -/
theorem listRows_format_cex :
    (keySelected oracleListXYZ "b" detailStart).listViewRows.map Prod.fst ≠
      ["  1 | x", "  2 | y", "  3 | z"] := by
  decide

/-- C7 amended: the list view renders one row per element with a 1-based
display index formatted `" %3d | %s"` — a literal leading space, the index
right-aligned to width 3, then `" | "` and the element; for `["x","y","z"]`
the rows are `"   1 | x"`, `"   2 | y"`, `"   3 | z"` (three leading
spaces). -/
theorem listRows_format (o : FetchOracle) (key : String) (s : DetailState)
    (ttl : String) (values : List String)
    (h1 : o.typeRes = Except.ok "list") (h2 : o.ttlRes = Except.ok ttl)
    (h3 : o.lrangeRes = Except.ok values) :
    (keySelected o key s).listViewRows =
      values.enum.map (fun iv =>
        (" " ++ goFmt3 (iv.1 + 1) ++ " | " ++ iv.2, "")) := by
  simp [keySelected, h1, h2, h3, listRow, finishSelect]

theorem listRows_format_witness :
    (keySelected oracleListXYZ "b" detailStart).listViewRows =
      [("   1 | x", ""), ("   2 | y", ""), ("   3 | z", "")] := by
  rw [listRows_format oracleListXYZ "b" detailStart "-1ns" ["x", "y", "z"]
    rfl rfl rfl]
  decide

end RedisGli
